import Mathlib

/-!
# Verification of the exercise-tracker service (`src/server.js`)

Shallow embedding of the request handlers of `src/server.js`:

* `register`    — `POST /api/users` (lines 36–54)
* `logExercise` — `POST /api/users/:_id/exercises` (lines 69–107)
* `getLogs`     — `GET /api/users/:_id/logs` (lines 110–160)

Timestamps are modelled as `Int` milliseconds since the Unix epoch, with the
server's local calendar taken to be UTC (the spec's concrete examples, e.g.
`"Mon May 01 2023"` for `2023-05-01`, assume this).  JavaScript's `new Date(s)`
is modelled on the strict ISO `YYYY-MM-DD` subset (the format the code's own
comment names for `from`/`to`); all other strings are modelled as unparsable.
JavaScript numbers are modelled as `ℚ` (`NaN` as `Option.none` of conversions);
the modelled subset of `Number(string)` is optional sign, decimal digits and an
optional fraction part, after trimming whitespace.
-/

namespace ExerciseTracker

/-! ## Calendar arithmetic (model of the JS `Date` built-ins used by the code) -/

/-- Milliseconds per day. -/
def msPerDay : Int := 86400000

/-- Is `y` a leap year (proleptic Gregorian)? -/
def isLeap (y : Int) : Bool :=
  (y % 4 == 0 && y % 100 != 0) || y % 400 == 0

/-- Days in month `m` (1–12) of year `y`. -/
def daysInMonth (y : Int) (m : Nat) : Nat :=
  if m == 2 then (if isLeap y then 29 else 28)
  else if m == 4 || m == 6 || m == 9 || m == 11 then 30
  else 31

/-- Days since 1970-01-01 of the civil date `y-m-d` (Howard Hinnant's
`days_from_civil`, with floor division). -/
def daysFromCivil (y : Int) (m d : Nat) : Int :=
  let y' : Int := y - (if m ≤ 2 then 1 else 0)
  let era : Int := Int.fdiv y' 400
  let yoe : Int := y' - era * 400
  let mp : Int := if 2 < m then (m : Int) - 3 else (m : Int) + 9
  let doy : Int := Int.fdiv (153 * mp + 2) 5 + (d : Int) - 1
  let doe : Int := yoe * 365 + Int.fdiv yoe 4 - Int.fdiv yoe 100 + doy
  era * 146097 + doe - 719468

/-- Civil date `(y, m, d)` of a count of days since 1970-01-01 (Howard
Hinnant's `civil_from_days`, with floor division). -/
def civilFromDays (z : Int) : Int × Nat × Nat :=
  let z' : Int := z + 719468
  let era : Int := Int.fdiv z' 146097
  let doe : Int := z' - era * 146097
  let yoe : Int :=
    Int.fdiv (doe - Int.fdiv doe 1460 + Int.fdiv doe 36524 - Int.fdiv doe 146096) 365
  let y : Int := yoe + era * 400
  let doy : Int := doe - (365 * yoe + Int.fdiv yoe 4 - Int.fdiv yoe 100)
  let mp : Int := Int.fdiv (5 * doy + 2) 153
  let d : Int := doy - Int.fdiv (153 * mp + 2) 5 + 1
  let m : Int := mp + (if mp < 10 then 3 else -9)
  (y + (if m ≤ 2 then 1 else 0), m.toNat, d.toNat)

/-- Weekday index (0 = Sunday) of a count of days since 1970-01-01
(1970-01-01 was a Thursday). -/
def weekdayOfDays (z : Int) : Nat :=
  ((z + 4).emod 7).toNat

def weekdayNames : List String :=
  ["Sun", "Mon", "Tue", "Wed", "Thu", "Fri", "Sat"]

def monthNames : List String :=
  ["Jan", "Feb", "Mar", "Apr", "May", "Jun",
   "Jul", "Aug", "Sep", "Oct", "Nov", "Dec"]

/-- Zero-pad a number to two digits. -/
def pad2 (n : Nat) : String :=
  if n < 10 then "0" ++ toString n else toString n

/-- Model of `Date.prototype.toDateString` (what `toFCCDateString` at
`server.js:26` calls) for a timestamp in ms, with the local calendar = UTC:
`"<3-letter weekday> <3-letter month> <2-digit day> <4-digit year>"`. -/
def toFCCDateString (t : Int) : String :=
  let z := Int.fdiv t msPerDay
  let c := civilFromDays z
  let y := c.1
  let m := c.2.1
  let d := c.2.2
  (weekdayNames.getD (weekdayOfDays z) "") ++ " " ++
    (monthNames.getD (m - 1) "") ++ " " ++ pad2 d ++ " " ++ toString y

/-! ## Model of JS string-to-value conversions used by the handlers -/

/-- Model of JS `String.prototype.trim`: drop whitespace from both ends
(on the ASCII whitespace the service's inputs use). -/
def trimString (s : String) : String :=
  ⟨((s.data.dropWhile (·.isWhitespace)).reverse.dropWhile (·.isWhitespace)).reverse⟩

/-- The digits of a list of characters, as long as all are digits. -/
def digitsToNat? : List Char → Option Nat
  | [] => some 0
  | c :: cs =>
    if c.isDigit then
      (digitsToNat? cs).map (fun n => (c.toNat - '0'.toNat) * 10 ^ cs.length + n)
    else none

/-- Model of `new Date(s).getTime()` for the strict ISO `YYYY-MM-DD` subset:
`none` is an invalid date (`NaN`), `some t` a timestamp in ms (UTC midnight).
Out-of-range months and days are invalid, as in V8's ISO parser. -/
def parseDate (s : String) : Option Int :=
  match s.toList with
  | [y1, y2, y3, y4, h1, m1, m2, h2, d1, d2] =>
    if h1 == '-' && h2 == '-' then
      match digitsToNat? [y1, y2, y3, y4], digitsToNat? [m1, m2], digitsToNat? [d1, d2] with
      | some y, some m, some d =>
        if 1 ≤ m && m ≤ 12 && 1 ≤ d && d ≤ daysInMonth (y : Int) m then
          some (daysFromCivil (y : Int) m d * msPerDay)
        else none
      | _, _, _ => none
    else none
  | _ => none

/-- Parse an unsigned decimal with optional fraction part into `ℚ`
(helper for `jsNumberOfString`). -/
def parseDecimal? (cs : List Char) : Option ℚ :=
  match cs.span (·.isDigit) with
  | (intPart, rest) =>
    match rest with
    | [] => (digitsToNat? intPart).map (fun n => (n : ℚ))
    | '.' :: frac =>
      if frac.all (·.isDigit) && (intPart ≠ [] || frac ≠ []) then
        match digitsToNat? intPart, digitsToNat? frac with
        | some i, some f => some ((i : ℚ) + (f : ℚ) / (10 ^ frac.length : ℚ))
        | _, _ => none
      else none
    | _ => none

/-- Model of JS `Number(s)` on a string: `none` is `NaN`.  After trimming,
the empty string converts to `0`; the modelled numeric subset is
`[+-]? digits [. digits]?` and `[+-]? . digits`. -/
def jsNumberOfString (s : String) : Option ℚ :=
  match (trimString s).toList with
  | [] => some 0
  | '-' :: cs => (parseDecimal? cs).map (fun q => -q)
  | '+' :: cs => parseDecimal? cs
  | cs => parseDecimal? cs

/-- Model of JS `parseInt(s, 10)`: skip leading whitespace, optional sign,
then the longest prefix of digits; no digits is `NaN` (`none`).  Trailing
garbage is ignored. -/
def parseIntJs (s? : Option String) : Option Int :=
  match s? with
  | none => none
  | some s =>
    let cs := (s.toList).dropWhile (·.isWhitespace)
    let signed : Bool × List Char :=
      match cs with
      | '-' :: rest => (true, rest)
      | '+' :: rest => (false, rest)
      | rest => (false, rest)
    match digitsToNat? (signed.2.takeWhile (·.isDigit)) with
    | some n =>
      if signed.2.takeWhile (·.isDigit) = [] then none
      else some (if signed.1 then -(n : Int) else (n : Int))
    | none => none

/-! ## JS values arriving in a request body -/

/-- A JSON/form value as the exercise handler can receive it. -/
inductive JsVal
  | undef
  | nullv
  | str (s : String)
  | num (q : ℚ)
  | bool (b : Bool)
  deriving DecidableEq, Repr

/-- JS truthiness test `!v` (negated): `undefined`, `null`, `""`, `0` and
`false` are falsy. -/
def jsFalsy : JsVal → Bool
  | .undef => true
  | .nullv => true
  | .str s => s == ""
  | .num q => q == 0
  | .bool b => !b

/-- Model of JS `Number(v)` on a body value (`none` = `NaN`). -/
def jsToNumber : JsVal → Option ℚ
  | .undef => none
  | .nullv => some 0
  | .str s => jsNumberOfString s
  | .num q => some q
  | .bool b => some (if b then 1 else 0)

/-- Model of `v.trim()`: defined only on strings, a thrown `TypeError`
otherwise (caught by the handler's `try/catch`). -/
def jsTrim : JsVal → Except Unit String
  | .str s => .ok (trimString s)
  | _ => .error ()

/-! ## Data model and persistence state -/

/-- A stored `User` record (ids are the opaque identifiers the persistence
layer generates, modelled as `Nat`). -/
structure User where
  id : Nat
  username : String
  deriving DecidableEq, Repr

/-- A stored `Exercise` record.  `duration` is the JS number the handler
stored, `date` a timestamp in ms. -/
structure Exercise where
  id : Nat
  userId : Nat
  description : String
  duration : ℚ
  date : Int
  deriving DecidableEq, Repr

/-- The persistence collaborator's state: the two collections plus the next
fresh id. -/
structure St where
  users : List User
  exercises : List Exercise
  nextId : Nat
  deriving DecidableEq, Repr

/-- Model of `User.findById` / `Exercise`'s user lookup. -/
def findById (st : St) (uid : Nat) : Option User :=
  st.users.find? (fun u => u.id == uid)

/-- Modelled from the spec: `User.create` of the persistence collaborator.
The mongoose `User` model (with its unique index on `username`) is not under
`src/`; per the spec, "create() may return a distinguished 'duplicate' outcome
alongside success" when a user with the same username already exists
(`err.code === 11000` with `keyPattern.username` in the handler). -/
def createUser (st : St) (uname : String) : Except Unit (User × St) :=
  if st.users.any (fun w => w.username == uname) then .error ()
  else
    let user : User := ⟨st.nextId, uname⟩
    .ok (user, { st with users := st.users ++ [user], nextId := st.nextId + 1 })

/-! ## `POST /api/users` — `register` (server.js lines 36–54) -/

/-- Response of the user-registration endpoint. -/
inductive RegResp
  | ok (username : String) (id : Nat)
  | err (status : Nat) (msg : String)
  deriving DecidableEq, Repr

/-- `POST /api/users`: reject a missing/blank username with 400; otherwise
create the user with the trimmed username; on a duplicate-key error, look the
existing user up by the trimmed username and return it (500 if that lookup
finds nothing). -/
def register (st : St) (username? : Option String) : RegResp × St :=
  match username? with
  | none => (.err 400 "username is required", st)
  | some u =>
    if trimString u = "" then (.err 400 "username is required", st)
    else
      match createUser st (trimString u) with
      | .ok (user, st') => (.ok user.username user.id, st')
      | .error _ =>
        match st.users.find? (fun w => w.username == trimString u) with
        | some existing => (.ok existing.username existing.id, st)
        | none => (.err 500 "server error", st)

/-! ## `POST /api/users/:_id/exercises` — `logExercise` (server.js 69–107) -/

/-- The success payload of the exercise endpoint: exactly the fields
`_id, username, date, duration, description` (server.js 96–102). -/
structure ExerciseView where
  _id : Nat
  username : String
  date : String
  duration : ℚ
  description : String
  deriving DecidableEq, Repr

/-- Response of the exercise endpoint. -/
inductive ExResp
  | ok (v : ExerciseView)
  | err (status : Nat) (msg : String)
  deriving DecidableEq, Repr

/-- Date resolution (server.js 84–85): a truthy `date` is parsed, and an
absent, empty or unparsable date silently becomes the current time `now`. -/
def resolveDate (date? : Option String) (now : Int) : Int :=
  match date? with
  | none => now
  | some s => if s = "" then now else (parseDate s).getD now

/-- `POST /api/users/:_id/exercises`.  `now` is the current time the two
`new Date()` calls would observe.  Unknown user → 404; `!description || !dur`
→ 400; a non-string truthy `description` throws at `description.trim()` and
the `catch` turns it into a 500; otherwise the exercise is persisted and the
view echoes the user's id. -/
def logExercise (st : St) (uid : Nat) (description duration : JsVal)
    (date? : Option String) (now : Int) : ExResp × St :=
  match findById st uid with
  | none => (.err 404 "user not found", st)
  | some user =>
    match jsToNumber duration with
    | none => (.err 400 "description and duration are required", st)
    | some dur =>
      if jsFalsy description || dur == 0 then
        (.err 400 "description and duration are required", st)
      else
        let d := resolveDate date? now
        match jsTrim description with
        | .error _ => (.err 500 "server error", st)
        | .ok desc =>
          let ex : Exercise := ⟨st.nextId, user.id, desc, dur, d⟩
          let st' : St :=
            { st with exercises := st.exercises ++ [ex], nextId := st.nextId + 1 }
          (.ok ⟨user.id, user.username, toFCCDateString ex.date, ex.duration,
             ex.description⟩, st')

/-! ## `GET /api/users/:_id/logs` — `getLogs` (server.js 110–160) -/

/-- The mongo `query.date` object after the handler built it: optional
`$gte` / `$lte` bounds. -/
structure DateFilter where
  gte : Option Int
  lte : Option Int
  deriving DecidableEq, Repr

/-- Filter construction (server.js 121–133): only truthy `from`/`to` are
looked at, only valid parses contribute a bound, and an empty `date` object
is deleted again. -/
def buildDateFilter (from? to? : Option String) : Option DateFilter :=
  let truthy : Option String → Bool := fun s? =>
    match s? with
    | none => false
    | some s => s != ""
  if truthy from? || truthy to? then
    let gte : Option Int :=
      match from? with
      | some s => if s != "" then parseDate s else none
      | none => none
    let lte : Option Int :=
      match to? with
      | some s => if s != "" then parseDate s else none
      | none => none
    if gte = none && lte = none then none else some ⟨gte, lte⟩
  else none

/-- Does timestamp `d` satisfy the (optional) date filter? -/
def matchesFilter (df : Option DateFilter) (d : Int) : Bool :=
  match df with
  | none => true
  | some f =>
    (match f.gte with | some b => b ≤ d | none => true) &&
    (match f.lte with | some b => d ≤ b | none => true)

/-- Limit resolution (server.js 136–137): `parseInt(limit, 10)`, and `NaN`
or anything below 1 means no limit. -/
def effLimit (limit? : Option String) : Option Int :=
  match parseIntJs limit? with
  | none => none
  | some l => if l < 1 then none else some l

/-- Date-ascending order on exercises (the mongo sort `{ date: 1 }`). -/
def dateLe (a b : Exercise) : Prop := a.date ≤ b.date

instance : DecidableRel dateLe := fun a b => Int.decLe a.date b.date

instance : IsTotal Exercise dateLe := ⟨fun a b => Int.le_total a.date b.date⟩

instance : IsTrans Exercise dateLe := ⟨fun _ _ _ h h' => le_trans h h'⟩

/-- Modelled from the spec: the persistence collaborator's
`find(filter, sort, limit)` (the mongo store is external): the records
matching the filter, sorted stably by date ascending, truncated to `lim`
when a limit is given. -/
def findExercises (st : St) (uid : Nat) (df : Option DateFilter)
    (lim : Option Int) : List Exercise :=
  let sorted :=
    (st.exercises.filter (fun e => e.userId == uid && matchesFilter df e.date)).insertionSort
      dateLe
  match lim with
  | none => sorted
  | some l => sorted.take l.toNat

/-- One entry of the returned log (server.js 144–148). -/
structure LogEntry where
  description : String
  duration : ℚ
  date : String
  deriving DecidableEq, Repr

/-- The success payload of the log endpoint (server.js 150–155). -/
structure LogView where
  username : String
  count : Nat
  _id : Nat
  log : List LogEntry
  deriving DecidableEq, Repr

/-- Response of the log endpoint. -/
inductive LogResp
  | ok (v : LogView)
  | err (status : Nat) (msg : String)
  deriving DecidableEq, Repr

/-- The exercise list the log endpoint fetches for a user and query. -/
def foundExercises (st : St) (uid : Nat) (from? to? limit? : Option String) :
    List Exercise :=
  findExercises st uid (buildDateFilter from? to?) (effLimit limit?)

/-- `GET /api/users/:_id/logs`: unknown user → 404, otherwise the filtered,
sorted, limited log with `count` the number of fetched records and `_id` the
user's id. -/
def getLogs (st : St) (uid : Nat) (from? to? limit? : Option String) : LogResp :=
  match findById st uid with
  | none => .err 404 "user not found"
  | some user =>
    let exercises := foundExercises st user.id from? to? limit?
    .ok ⟨user.username, exercises.length, user.id,
      exercises.map (fun e => ⟨e.description, e.duration, toFCCDateString e.date⟩)⟩

/-! ## Concrete state used by the witnesses -/

/-- A one-user persistence state ("alice" with id 1). -/
def st0 : St := ⟨[⟨1, "alice"⟩], [], 2⟩

/-- A state with one user and three exercises stored out of date order. -/
def st1 : St :=
  ⟨[⟨1, "alice"⟩],
   [⟨2, 1, "run", 30, 200⟩, ⟨3, 1, "swim", 45, 100⟩, ⟨4, 1, "bike", 60, 300⟩],
   5⟩

/-! ## Claims -/

/-- **C4**: a `logExercise` or `getLogs` call whose user id does not resolve
to an existing user fails with the 404 "user not found" error regardless of
every other supplied field, the check coming before description/duration
validation and before any persistence mutation (the state is returned
unchanged, so no `Exercise` is created). -/
theorem notFound_before_validation (st : St) (uid : Nat)
    (description duration : JsVal) (date? : Option String) (now : Int)
    (from? to? limit? : Option String)
    (h : findById st uid = none) :
    logExercise st uid description duration date? now =
      (.err 404 "user not found", st) ∧
    getLogs st uid from? to? limit? = .err 404 "user not found" := by
  refine ⟨?_, ?_⟩
  · simp [logExercise, h]
  · simp [getLogs, h]

/-- Witness for C4: user id 99 does not exist in `st0`. -/
theorem notFound_before_validation_witness :
    logExercise st0 99 (.str "run") (.str "30") none 0 =
      (.err 404 "user not found", st0) ∧
    getLogs st0 99 none none none = .err 404 "user not found" :=
  notFound_before_validation st0 99 (.str "run") (.str "30") none 0
    none none none (by decide)

/-- Counterexample for **C2**: the claim says a whitespace-only description
(empty after trimming) is rejected with the 400 validation error; on the code
`description = "   "` is truthy, so validation passes and the exercise is
created with the empty trimmed description.  A negative duration `"-5"`,
which does not convert to a positive-nonzero number, is accepted as well. -/
theorem logExercise_whitespace_description_not_rejected :
    (logExercise st0 1 (.str "   ") (.str "30") none 0).1 ≠
      .err 400 "description and duration are required" ∧
    trimString "   " = "" ∧
    (logExercise st0 1 (.str "   ") (.str "30") none 0).1 =
      .ok ⟨1, "alice", "Thu Jan 01 1970", 30, ""⟩ ∧
    (logExercise st0 1 (.str "run") (.str "-5") none 0).1 =
      .ok ⟨1, "alice", "Thu Jan 01 1970", -5, "run"⟩ := by
  refine ⟨by decide, by decide, by decide, by decide⟩

/-- **C2 (amended)**: `logExercise` on an existing user fails with the 400
error "description and duration are required" iff the description is falsy
(absent, null, the empty string, zero or `false` — *not* merely blank after
trimming) or the duration converts to `NaN` or `0`; whitespace-only
descriptions and negative durations pass this validation. -/
theorem logExercise_validation (st : St) (uid : Nat) (user : User)
    (description duration : JsVal) (date? : Option String) (now : Int)
    (h : findById st uid = some user) :
    (logExercise st uid description duration date? now).1 =
        .err 400 "description and duration are required" ↔
      (jsFalsy description = true ∨ jsToNumber duration = none ∨
        jsToNumber duration = some 0) := by
  unfold logExercise
  rw [h]
  cases hdur : jsToNumber duration with
  | none => simp
  | some dur =>
    by_cases hf : jsFalsy description = true
    · simp [hf]
    · by_cases hz : dur = 0
      · simp [hz, hf]
      · cases ht : jsTrim description with
        | error e => simp [hf, hz, ht]
        | ok desc => simp [hf, hz, ht]

/-- Witness for C2 (amended): with user 1 present in `st0`, an absent
description is rejected with the 400 error, and a whitespace-only description
with duration "30" is not. -/
theorem logExercise_validation_witness :
    ((logExercise st0 1 .undef (.str "30") none 0).1 =
        .err 400 "description and duration are required") ∧
    ¬ ((logExercise st0 1 (.str "   ") (.str "30") none 0).1 =
        .err 400 "description and duration are required") := by
  refine ⟨?_, ?_⟩
  · exact (logExercise_validation st0 1 ⟨1, "alice"⟩ .undef (.str "30") none 0
      (by decide)).mpr (Or.inl (by decide))
  · intro hcontra
    have := (logExercise_validation st0 1 ⟨1, "alice"⟩ (.str "   ") (.str "30")
      none 0 (by decide)).mp hcontra
    revert this
    decide

/-- **C10**: a truthy non-string description (here a JSON number `q ≠ 0`)
passes the truthiness validation, but `description.trim()` then throws, so
the handler's `catch` returns the generic 500 server error — not a 400 — and
no exercise is persisted (the state is unchanged). -/
theorem logExercise_nonstring_description_500 (st : St) (uid : Nat)
    (user : User) (q : ℚ) (duration : JsVal) (dur : ℚ)
    (date? : Option String) (now : Int)
    (h : findById st uid = some user) (hq : q ≠ 0)
    (hdur : jsToNumber duration = some dur) (hdur0 : dur ≠ 0) :
    logExercise st uid (.num q) duration date? now =
      (.err 500 "server error", st) := by
  unfold logExercise
  rw [h, hdur]
  simp [jsFalsy, hq, hdur0, jsTrim]

/-- Witness for C10: description `5` (a JSON number) with duration "30" on
`st0`'s user 1 yields the 500 server error and leaves the state unchanged. -/
theorem logExercise_nonstring_description_500_witness :
    logExercise st0 1 (.num 5) (.str "30") none 0 =
      (.err 500 "server error", st0) :=
  logExercise_nonstring_description_500 st0 1 ⟨1, "alice"⟩ 5 (.str "30") 30
    none 0 (by decide) (by decide) (by decide) (by decide)

/-- **C9**: `register` fails with the 400 validation error exactly for a
missing username or one that is empty after trimming; any other username is
stored trimmed, the response carries the trimmed username with the id, and
when no user with that username pre-exists a new record is persisted. -/
theorem register_validation (st : St) (u : String) :
    register st none = (.err 400 "username is required", st) ∧
    (trimString u = "" →
      register st (some u) = (.err 400 "username is required", st)) ∧
    (trimString u ≠ "" →
      ∃ id st', register st (some u) = (.ok (trimString u) id, st') ∧
        (∃ w, w ∈ st'.users ∧ w.id = id ∧ w.username = trimString u) ∧
        ((∀ w ∈ st.users, w.username ≠ trimString u) →
          st'.users = st.users ++ [⟨id, trimString u⟩])) := by
  refine ⟨rfl, ?_, ?_⟩
  · intro h
    simp [register, h]
  · intro h
    simp only [register, createUser]
    rw [if_neg h]
    by_cases hex : st.users.any (fun w => w.username == trimString u) = true
    · rw [if_pos hex]
      obtain ⟨w, hwmem, hwp⟩ := List.any_eq_true.mp hex
      have hs : (st.users.find? (fun w => w.username == trimString u)).isSome :=
        List.find?_isSome.mpr ⟨w, hwmem, hwp⟩
      obtain ⟨w', hw'⟩ := Option.isSome_iff_exists.mp hs
      rw [hw']
      have hw'u : w'.username = trimString u := by
        have hp := List.find?_some hw'
        simpa using hp
      refine ⟨w'.id, st, ?_, ?_, ?_⟩
      · show (RegResp.ok w'.username w'.id, st) = _
        rw [hw'u]
      · exact ⟨w', List.mem_of_find?_eq_some hw', rfl, hw'u⟩
      · intro hno
        exact absurd (by simpa using hwp) (hno w hwmem)
    · rw [if_neg hex]
      exact ⟨st.nextId, _, rfl, ⟨⟨st.nextId, trimString u⟩, by simp, rfl, rfl⟩,
        fun _ => rfl⟩

/-- Witness for C9: a blank username is rejected on `st0`, and `" bob "` is
registered as `"bob"`. -/
theorem register_validation_witness :
    register st0 (some "   ") = (.err 400 "username is required", st0) ∧
    ∃ id st', register st0 (some " bob ") = (.ok "bob" id, st') := by
  refine ⟨(register_validation st0 "   ").2.1 (by decide), ?_⟩
  obtain ⟨id, st', heq, -, -⟩ := (register_validation st0 " bob ").2.2 (by decide)
  have ht : trimString " bob " = "bob" := by decide
  exact ⟨id, st', by rw [← ht]; exact heq⟩

/-- **C3**: `register` is idempotent by username — for a username that is
non-empty after trimming, registering twice returns the same id both times —
and when the persistence layer reports a uniqueness violation (a user with
that username already exists), `register` does not fail but returns the
pre-existing user found by the fallback lookup. -/
theorem register_idempotent (st : St) (u : String) (hu : trimString u ≠ "") :
    (∃ un id st₁, register st (some u) = (.ok un id, st₁) ∧
      (register st₁ (some u)).1 = .ok un id) ∧
    (∀ w, st.users.find? (fun x => x.username == trimString u) = some w →
      register st (some u) = (.ok w.username w.id, st)) := by
  have hdup : ∀ (st' : St) (w : User),
      st'.users.find? (fun x => x.username == trimString u) = some w →
      register st' (some u) = (.ok w.username w.id, st') := by
    intro st' w hw
    have hwmem : w ∈ st'.users := List.mem_of_find?_eq_some hw
    have hwp := List.find?_some hw
    have hex : st'.users.any (fun x => x.username == trimString u) = true :=
      List.any_eq_true.mpr ⟨w, hwmem, hwp⟩
    simp only [register, createUser]
    rw [if_neg hu, if_pos hex, hw]
  refine ⟨?_, hdup st⟩
  by_cases hex : st.users.any (fun x => x.username == trimString u) = true
  · have hs : (st.users.find? (fun x => x.username == trimString u)).isSome := by
      obtain ⟨w, hwmem, hwp⟩ := List.any_eq_true.mp hex
      exact List.find?_isSome.mpr ⟨w, hwmem, hwp⟩
    obtain ⟨w, hw⟩ := Option.isSome_iff_exists.mp hs
    exact ⟨w.username, w.id, st, hdup st w hw, by rw [hdup st w hw]⟩
  · have hnone : st.users.find? (fun x => x.username == trimString u) = none := by
      rw [List.find?_eq_none]
      intro x hx hpx
      exact hex (List.any_eq_true.mpr ⟨x, hx, hpx⟩)
    have hnew : register st (some u) =
        (.ok (trimString u) st.nextId,
          { st with users := st.users ++ [⟨st.nextId, trimString u⟩],
                    nextId := st.nextId + 1 }) := by
      simp only [register, createUser]
      rw [if_neg hu, if_neg hex]
    refine ⟨trimString u, st.nextId, _, hnew, ?_⟩
    have hfind : List.find? (fun x => x.username == trimString u)
        (st.users ++ [(⟨st.nextId, trimString u⟩ : User)]) =
        some (⟨st.nextId, trimString u⟩ : User) := by
      rw [List.find?_append, hnone]
      simp
    rw [hdup _ _ hfind]

/-- Witness for C3: registering "alice" twice on `st0` (where "alice"
already exists) returns the same id both times. -/
theorem register_idempotent_witness :
    ∃ un id st₁, register st0 (some "alice") = (.ok un id, st₁) ∧
      (register st₁ (some "alice")).1 = .ok un id :=
  (register_idempotent st0 "alice" (by decide)).1

/-- Shared helper: the full outcome of a `logExercise` call that passes
validation (existing user, non-empty string description, non-`NaN`,
non-zero duration). -/
theorem logExercise_success_eq (st : St) (uid : Nat) (user : User)
    (s : String) (duration : JsVal) (dur : ℚ) (date? : Option String)
    (now : Int) (h : findById st uid = some user) (hs : s ≠ "")
    (hdur : jsToNumber duration = some dur) (hdur0 : dur ≠ 0) :
    logExercise st uid (.str s) duration date? now =
      (.ok ⟨user.id, user.username, toFCCDateString (resolveDate date? now),
          dur, trimString s⟩,
        { st with
          exercises := st.exercises ++
            [⟨st.nextId, user.id, trimString s, dur, resolveDate date? now⟩],
          nextId := st.nextId + 1 }) := by
  unfold logExercise
  rw [h, hdur]
  simp [jsFalsy, hs, hdur0, jsTrim]

/-- **C6**: for a `logExercise` call that passes validation, the persisted
exercise's date is the supplied date when it parses, and the current
timestamp `now` when the date is absent or unparsable; a malformed date
never causes an error (the call still succeeds). -/
theorem logExercise_date_resolution (st : St) (uid : Nat) (user : User)
    (s : String) (duration : JsVal) (dur : ℚ) (date? : Option String)
    (now : Int) (h : findById st uid = some user) (hs : s ≠ "")
    (hdur : jsToNumber duration = some dur) (hdur0 : dur ≠ 0) :
    (∃ v st', logExercise st uid (.str s) duration date? now = (.ok v, st') ∧
      st'.exercises = st.exercises ++
        [⟨st.nextId, user.id, trimString s, dur, resolveDate date? now⟩]) ∧
    (∀ ds d, date? = some ds → parseDate ds = some d →
      resolveDate date? now = d) ∧
    (date? = none → resolveDate date? now = now) ∧
    (∀ ds, date? = some ds → parseDate ds = none →
      resolveDate date? now = now) := by
  refine ⟨?_, ?_, ?_, ?_⟩
  · exact ⟨_, _, logExercise_success_eq st uid user s duration dur date? now
      h hs hdur hdur0, rfl⟩
  · intro ds d hds hp
    subst hds
    have hne : ds ≠ "" := by
      intro he
      rw [he] at hp
      have hnone : parseDate "" = none := rfl
      rw [hnone] at hp
      exact Option.noConfusion hp
    show (if ds = "" then now else (parseDate ds).getD now) = d
    rw [if_neg hne, hp]
    rfl
  · intro hd
    subst hd
    rfl
  · intro ds hds hp
    subst hds
    show (if ds = "" then now else (parseDate ds).getD now) = now
    by_cases hne : ds = ""
    · rw [if_pos hne]
    · rw [if_neg hne, hp]
      rfl

/-- Witness for C6: logging a run with a parsable date and with a malformed
date on `st0`'s user 1. -/
theorem logExercise_date_resolution_witness :
    (∃ v st', logExercise st0 1 (.str "run") (.str "30") (some "2023-05-01") 7
        = (.ok v, st') ∧
      st'.exercises = st0.exercises ++
        [⟨st0.nextId, 1, trimString "run", 30,
          resolveDate (some "2023-05-01") 7⟩]) ∧
    resolveDate (some "2023-05-01") 7 = 1682899200000 ∧
    resolveDate (some "garbage") 7 = 7 := by
  have h := logExercise_date_resolution st0 1 ⟨1, "alice"⟩ "run" (.str "30")
    30 (some "2023-05-01") 7 (by decide) (by decide) (by decide) (by decide)
  have h2 := logExercise_date_resolution st0 1 ⟨1, "alice"⟩ "run" (.str "30")
    30 (some "garbage") 7 (by decide) (by decide) (by decide) (by decide)
  exact ⟨h.1, h.2.1 "2023-05-01" 1682899200000 rfl (by decide),
    h2.2.2.2 "garbage" rfl (by decide)⟩

/-- **C7**: a successful `logExercise` response carries exactly the fields
`_id, username, date, duration, description`, with `_id` the USER's id (the
created exercise itself gets the fresh id `st.nextId`, which is not echoed),
and a successful `getLogs` response's `id` is likewise the user's id. -/
theorem responses_echo_user_id (st : St) (uid : Nat) (user : User)
    (s : String) (duration : JsVal) (dur : ℚ) (date? : Option String)
    (now : Int) (from? to? limit? : Option String)
    (h : findById st uid = some user) (hs : s ≠ "")
    (hdur : jsToNumber duration = some dur) (hdur0 : dur ≠ 0) :
    ∃ st',
      logExercise st uid (.str s) duration date? now =
        (.ok ⟨user.id, user.username, toFCCDateString (resolveDate date? now),
          dur, trimString s⟩, st') ∧
      (∃ ex, st'.exercises = st.exercises ++ [ex] ∧ ex.id = st.nextId ∧
        ex.userId = user.id) ∧
      (∀ v', getLogs st' uid from? to? limit? = .ok v' →
        v'._id = user.id ∧ v'.username = user.username) := by
  refine ⟨_, logExercise_success_eq st uid user s duration dur date? now
    h hs hdur hdur0, ⟨_, rfl, rfl, rfl⟩, ?_⟩
  intro v' hv'
  have hfind : findById
      { st with
        exercises := st.exercises ++
          [⟨st.nextId, user.id, trimString s, dur, resolveDate date? now⟩],
        nextId := st.nextId + 1 } uid = some user := h
  rw [getLogs, hfind] at hv'
  have hv := hv'
  simp only [LogResp.ok.injEq] at hv
  rw [← hv]
  exact ⟨rfl, rfl⟩

/-- Witness for C7: a concrete successful log on `st0`'s user 1, then
reading the log back. -/
theorem responses_echo_user_id_witness :
    ∃ st',
      logExercise st0 1 (.str "run") (.str "30") (some "2023-05-01") 0 =
        (.ok ⟨1, "alice",
          toFCCDateString (resolveDate (some "2023-05-01") 0), 30,
          trimString "run"⟩, st') ∧
      (∃ ex, st'.exercises = st0.exercises ++ [ex] ∧ ex.id = st0.nextId ∧
        ex.userId = 1) ∧
      (∀ v', getLogs st' 1 none none none = .ok v' →
        v'._id = 1 ∧ v'.username = "alice") :=
  responses_echo_user_id st0 1 ⟨1, "alice"⟩ "run" (.str "30") 30
    (some "2023-05-01") 0 none none none (by decide) (by decide) (by decide)
    (by decide)

/-- **C8**: response date strings come from the fixed
weekday/month/day/year formatter applied to the resolved timestamp; in
particular a `logExercise` with date `"2023-05-01"` renders bit-exact as
`"Mon May 01 2023"`. -/
theorem date_format (st : St) (uid : Nat) (user : User) (now : Int)
    (h : findById st uid = some user) :
    toFCCDateString (resolveDate (some "2023-05-01") now) = "Mon May 01 2023" ∧
    (logExercise st uid (.str "run") (.str "30") (some "2023-05-01") now).1 =
      .ok ⟨user.id, user.username, "Mon May 01 2023", 30, "run"⟩ ∧
    (∀ description duration date2? now2 v st',
      logExercise st uid description duration date2? now2 = (.ok v, st') →
      v.date = toFCCDateString (resolveDate date2? now2)) := by
  have h1 : resolveDate (some "2023-05-01") now = 1682899200000 := rfl
  have h2 : toFCCDateString 1682899200000 = "Mon May 01 2023" := by decide
  refine ⟨by rw [h1, h2], ?_, ?_⟩
  · rw [logExercise_success_eq st uid user "run" (.str "30") 30
      (some "2023-05-01") now h (by decide) (by decide) (by decide)]
    rw [h1, h2]
    rw [show trimString "run" = "run" from by decide]
  · intro description duration date2? now2 v st' hcall
    unfold logExercise at hcall
    split at hcall
    · exact absurd hcall (by simp)
    · split at hcall
      · exact absurd hcall (by simp)
      · split at hcall
        · exact absurd hcall (by simp)
        · split at hcall
          · exact absurd hcall (by simp)
          · simp only [Prod.mk.injEq, ExResp.ok.injEq] at hcall
            rw [← hcall.1]

/-- Witness for C8: the concrete scenario on `st0`. -/
theorem date_format_witness :
    (logExercise st0 1 (.str "run") (.str "30") (some "2023-05-01") 0).1 =
      .ok ⟨1, "alice", "Mon May 01 2023", 30, "run"⟩ :=
  (date_format st0 1 ⟨1, "alice"⟩ 0 (by decide)).2.1

/-- Helper: the handler's nested filter construction (truthiness guard,
per-bound parse, deletion of the empty filter) collapses to the parses of
`from` and `to`. -/
theorem buildDateFilter_eq (from? to? : Option String) :
    buildDateFilter from? to? =
      match from?.bind parseDate, to?.bind parseDate with
      | none, none => none
      | g, l => some ⟨g, l⟩ := by
  have hemp : parseDate "" = none := rfl
  cases from? with
  | none =>
    cases to? with
    | none => rfl
    | some t =>
      by_cases ht : t = ""
      · subst ht
        simp [buildDateFilter, hemp]
      · cases hp : parseDate t <;> simp [buildDateFilter, ht, hp]
  | some f =>
    by_cases hf : f = ""
    · subst hf
      cases to? with
      | none => simp [buildDateFilter, hemp]
      | some t =>
        by_cases ht : t = ""
        · subst ht
          simp [buildDateFilter, hemp]
        · cases hp : parseDate t <;> simp [buildDateFilter, ht, hp, hemp]
    · cases hpf : parseDate f with
      | none =>
        cases to? with
        | none => simp [buildDateFilter, hf, hpf]
        | some t =>
          by_cases ht : t = ""
          · subst ht
            simp [buildDateFilter, hf, hpf, hemp]
          · cases hp : parseDate t <;> simp [buildDateFilter, hf, ht, hpf, hp]
      | some x =>
        cases to? with
        | none => simp [buildDateFilter, hf, hpf]
        | some t =>
          by_cases ht : t = ""
          · subst ht
            simp [buildDateFilter, hf, hpf, hemp]
          · cases hp : parseDate t <;> simp [buildDateFilter, hf, ht, hpf, hp]

/-- **C5**: the date filter keeps exactly the timestamps at or after a
parsable `from` and at or before a parsable `to`; an unparsable bound is
silently dropped, both bounds unparsable or absent means no filter at all,
and `getLogs` never errors over the filter parameters. -/
theorem date_filter_spec (from? to? : Option String) (d : Int)
    (st : St) (uid : Nat) (user : User) (limit? : Option String)
    (h : findById st uid = some user) :
    (matchesFilter (buildDateFilter from? to?) d = true ↔
      ((∀ x, from?.bind parseDate = some x → x ≤ d) ∧
       (∀ y, to?.bind parseDate = some y → d ≤ y))) ∧
    (from?.bind parseDate = none ∧ to?.bind parseDate = none →
      buildDateFilter from? to? = none) ∧
    (∃ v, getLogs st uid from? to? limit? = .ok v) := by
  refine ⟨?_, ?_, ?_⟩
  · rw [buildDateFilter_eq]
    cases hg : from?.bind parseDate with
    | none =>
      cases hl : to?.bind parseDate with
      | none => simp [matchesFilter]
      | some y => simp [matchesFilter]
    | some x =>
      cases hl : to?.bind parseDate with
      | none => simp [matchesFilter]
      | some y => simp [matchesFilter, and_comm]
  · intro hb
    rw [buildDateFilter_eq, hb.1, hb.2]
  · exact ⟨⟨user.username,
      (foundExercises st user.id from? to? limit?).length, user.id,
      (foundExercises st user.id from? to? limit?).map
        (fun e => ⟨e.description, e.duration, toFCCDateString e.date⟩)⟩,
      by rw [getLogs, h]⟩

/-- Witness for C5: a parsable `from`, an unparsable `to` and a plain read
on `st0`'s user 1. -/
theorem date_filter_spec_witness :
    (matchesFilter (buildDateFilter (some "2023-05-01") (some "notadate"))
        1682899200000 = true ↔
      ((∀ x, (some "2023-05-01").bind parseDate = some x →
          x ≤ 1682899200000) ∧
       (∀ y, (some "notadate").bind parseDate = some y →
          1682899200000 ≤ y))) ∧
    ((some "2023-05-01").bind parseDate = none ∧
        (some "notadate").bind parseDate = none →
      buildDateFilter (some "2023-05-01") (some "notadate") = none) ∧
    (∃ v, getLogs st0 1 (some "2023-05-01") (some "notadate") none = .ok v) :=
  date_filter_spec (some "2023-05-01") (some "notadate") 1682899200000
    st0 1 ⟨1, "alice"⟩ none (by decide)

/-- **C1**: for an existing user, `getLogs` succeeds and returns exactly
that user's exercises that pass the date filter (a permutation of the
filtered store), sorted by date ascending; when `limit` parses to a positive
integer the result is the first `limit` entries of that sorted sequence,
otherwise no cap applies; and `count` always equals the number of entries
returned. -/
theorem getLogs_spec (st : St) (uid : Nat) (user : User)
    (from? to? limit? : Option String)
    (h : findById st uid = some user) :
    ∃ (v : LogView) (es all : List Exercise),
      getLogs st uid from? to? limit? = .ok v ∧
      v.username = user.username ∧ v._id = user.id ∧
      v.log = es.map (fun e => ⟨e.description, e.duration,
        toFCCDateString e.date⟩) ∧
      v.count = v.log.length ∧
      es.Pairwise dateLe ∧
      all.Perm (st.exercises.filter (fun e =>
        e.userId == user.id && matchesFilter (buildDateFilter from? to?) e.date)) ∧
      all.Pairwise dateLe ∧
      (∀ l, effLimit limit? = some l → es = all.take l.toNat) ∧
      (effLimit limit? = none → es = all) ∧
      (∀ l, effLimit limit? = some l ↔
        (parseIntJs limit? = some l ∧ 1 ≤ l)) := by
  have hiff : ∀ l, effLimit limit? = some l ↔
      (parseIntJs limit? = some l ∧ 1 ≤ l) := by
    intro l
    cases hp : parseIntJs limit? with
    | none => simp [effLimit, hp]
    | some m =>
      by_cases hm : m < 1
      · simp only [effLimit, hp, if_pos hm]
        constructor
        · intro hc
          exact Option.noConfusion hc
        · rintro ⟨he, hl⟩
          cases he
          omega
      · simp only [effLimit, hp, if_neg hm]
        constructor
        · intro hc
          cases hc
          exact ⟨rfl, by omega⟩
        · rintro ⟨he, -⟩
          cases he
          rfl
  have hperm := List.perm_insertionSort dateLe
    (st.exercises.filter (fun e =>
      e.userId == user.id && matchesFilter (buildDateFilter from? to?) e.date))
  have hsorted := List.sorted_insertionSort dateLe
    (st.exercises.filter (fun e =>
      e.userId == user.id && matchesFilter (buildDateFilter from? to?) e.date))
  refine ⟨_, foundExercises st user.id from? to? limit?, _,
    by rw [getLogs, h], rfl, rfl, rfl, (List.length_map _ _).symm, ?_,
    hperm, hsorted, ?_, ?_, hiff⟩
  · show (foundExercises st user.id from? to? limit?).Pairwise dateLe
    unfold foundExercises findExercises
    cases heff : effLimit limit? with
    | none => exact hsorted
    | some l => exact hsorted.sublist (List.take_sublist _ _)
  · intro l heff
    show foundExercises st user.id from? to? limit? = _
    unfold foundExercises findExercises
    rw [heff]
  · intro heff
    show foundExercises st user.id from? to? limit? = _
    unfold foundExercises findExercises
    rw [heff]

/-- Witness for C1: reading user 1's log from `st1` with `limit=2`. -/
theorem getLogs_spec_witness :
    ∃ (v : LogView) (es all : List Exercise),
      getLogs st1 1 none none (some "2") = .ok v ∧
      v.username = "alice" ∧ v._id = 1 ∧
      v.log = es.map (fun e => ⟨e.description, e.duration,
        toFCCDateString e.date⟩) ∧
      v.count = v.log.length ∧
      es.Pairwise dateLe ∧
      all.Perm (st1.exercises.filter (fun e =>
        e.userId == 1 && matchesFilter (buildDateFilter none none) e.date)) ∧
      all.Pairwise dateLe ∧
      (∀ l, effLimit (some "2") = some l → es = all.take l.toNat) ∧
      (effLimit (some "2") = none → es = all) ∧
      (∀ l, effLimit (some "2") = some l ↔
        (parseIntJs (some "2") = some l ∧ 1 ≤ l)) :=
  getLogs_spec st1 1 ⟨1, "alice"⟩ none none (some "2") (by decide)

end ExerciseTracker

